import Mathlib

/-!
# Verification of the listening-socket layer (`src/event/ServerSocket.cxx`)

This file is a shallow embedding, in Lean 4, of the `OneServerSocket` /
`ServerSocket` classes of `src/event/ServerSocket.cxx` (the Linux
configuration: `HAVE_TCP`, `HAVE_IPV6` and `HAVE_UN` all defined), together
with theorems settling the behavioural claims about that code.

Modelling conventions:

* OS effects are resolved by explicit oracles passed to the embedded
  functions: `bind : Nat -> Option String` gives, for the listener at a
  given position of the group, the outcome of `socket_bind_listen` for its
  address (`none` = success, `some e` = failure with OS error text `e`).
  Similarly `AddFD` takes the outcome of `getsockname`, `AddHost` the
  outcome of `resolve_host_port`, `AddPort` the outcome of the
  `socket(AF_INET6, ...)` probe, and `AddPath` the outcome of
  `RemoveFile`.
* Diagnostics are observable data: the result of `ServerSocket::Open`
  records the warnings emitted by `FormatWarning` (as structured tuples of
  the arguments that are formatted), the `chmod` calls performed, the list
  of positions whose bind was attempted, and whether the
  `assert(!IsDefined())` precondition of `OneServerSocket::Open` held at
  every attempt.
* Errors are their message strings (the C++ `Error` carries a domain and a
  message; all errors produced in this file belong to
  `server_socket_domain`).
-/

namespace MPD

/-- One bindable endpoint, the model of the socket addresses stored in
`AllocatedSocketAddress`.  `ipv4Any`/`ipv6Any` are the wildcard addresses
built by `AddPortIPv4`/`AddPortIPv6`, `localPath` the local sockets built
by `AddPath`, `resolved` the addresses coming back from the resolver or
from `getsockname`. -/
inductive Addr where
  | ipv4Any : Nat → Addr
  | ipv6Any : Nat → Addr
  | localPath : String → Addr
  | resolved : String → Addr
deriving DecidableEq, Repr

/-- Modelled from the spec: the textual form of an address used in
diagnostics (the `ToString(address)` helper lives in `net/ToString.cxx`,
outside the excerpt; the spec only requires a printable rendering of each
address, e.g. host:port or the socket path). -/
def Addr.describe : Addr → String
  | .ipv4Any p => "0.0.0.0:" ++ toString p
  | .ipv6Any p => "[::]:" ++ toString p
  | .localPath s => s
  | .resolved s => s

/-- The model of class `OneServerSocket` (lines 54-118): one listener,
owning a serial, an optional local-socket path (null unless `SetPath` was
called), an address, and the socket-monitor state (`isOpen` models
`SocketMonitor::IsDefined`, i.e. a defined, registered socket). -/
structure OneServerSocket where
  serial : Nat
  path : Option String
  address : Addr
  isOpen : Bool
deriving DecidableEq, Repr

/-- `OneServerSocket::ToString` (lines 104-107). -/
def OneServerSocket.describe (s : OneServerSocket) : String :=
  s.address.describe

/-- Observable outcome of one `OneServerSocket::Open` call (lines
182-206).  `ok`/`errMsg` model the returned bool and the `Error` out
parameter, `sock` the listener afterwards, `chmods` the `chmod` calls
performed, and `assertViolated` whether the `assert(!IsDefined())` at line
185 was violated (`IsDefined()` already true on entry). -/
structure OneOpenResult where
  ok : Bool
  sock : OneServerSocket
  errMsg : String
  chmods : List (String × Nat)
  assertViolated : Bool
deriving DecidableEq, Repr

/-- The `chmod(path, 0666)` calls of lines 194-199: one when a local
path is set, none otherwise. -/
def pathChmods (s : OneServerSocket) : List (String × Nat) :=
  match s.path with
  | some p => [(p, 0o666)]
  | none => []

/-- `OneServerSocket::Open` (lines 182-206): `socket_bind_listen` (its
outcome is the `bindResult` oracle); on failure return false with the
error; on success, `chmod(path, 0666)` when a local path is set, then
`SetFD` (register in the event loop, i.e. `isOpen := true`). -/
def OneServerSocket.openOne (s : OneServerSocket) (bindResult : Option String) :
    OneOpenResult :=
  match bindResult with
  | some e => { ok := false, sock := s, errMsg := e, chmods := [],
                assertViolated := s.isOpen }
  | none =>
      { ok := true, sock := { s with isOpen := true }, errMsg := "",
        chmods := pathChmods s, assertViolated := s.isOpen }

/-- `SocketMonitor::Close`: release the descriptor, unregister from the
event loop (`IsDefined()` becomes false). -/
def OneServerSocket.close (s : OneServerSocket) : OneServerSocket :=
  { s with isOpen := false }

/-- The effect of `ServerSocket::Close` (lines 276-282) on the listener
list: every open listener is closed, the rest are untouched (closing an
already-closed listener is a no-op, which is why an unconditional map is
the same function as the guarded loop in the source). -/
def closeAll (ls : List OneServerSocket) : List OneServerSocket :=
  ls.map OneServerSocket.close

/-- The model of class `ServerSocket`: the ordered listener list and the
`next_serial` counter (constructor at lines 208-209 starts it at 1). -/
structure ServerSocket where
  sockets : List OneServerSocket
  next_serial : Nat
deriving DecidableEq, Repr

/-- `ServerSocket::ServerSocket` (lines 208-209). -/
def ServerSocket.init : ServerSocket := { sockets := [], next_serial := 1 }

/-- The condition of line 225: `bad != nullptr && i.GetSerial() != bad->GetSerial()`. -/
def badDiffers : Option OneServerSocket → Nat → Bool
  | some b, s => !(b.serial == s)
  | none, _ => false

/-- The condition of line 233: `good != nullptr && good->GetSerial() == i.GetSerial()`. -/
def goodShares : Option OneServerSocket → Nat → Bool
  | some g, s => g.serial == s
  | none, _ => false

/-- The `good->ToString()` argument of the warning at lines 236-242
(only evaluated when `good` is set). -/
def goodDescr : Option OneServerSocket → String
  | some g => g.describe
  | none => ""

/-- Observable outcome of `ServerSocket::Open` (lines 215-274).
`sockets` is the listener list afterwards, `ok` the returned bool,
`error` the `Error` out parameter (set only on failure), `warnings` the
`FormatWarning` calls (position of the failed listener, its address
string, the bind error message, the address string of the good sibling),
`chmods` the `chmod` calls, `attempted` the positions whose
`OneServerSocket::Open` was called, and `assertOk` whether the
`assert(!IsDefined())` precondition held at every attempt. -/
structure OpenResult where
  sockets : List OneServerSocket
  ok : Bool
  error : Option String
  warnings : List (Nat × String × String × String)
  chmods : List (String × Nat)
  attempted : List Nat
  assertOk : Bool
deriving DecidableEq, Repr

/-- The loop of `ServerSocket::Open` (lines 218-273), one step per
listener.  Arguments after the listener list: position of its head in the
whole group, the rolling `good` and `bad` pointers, the stored
`last_error`, the listeners already walked (with their updated state),
and the diagnostic accumulators. -/
def openLoop (bind : Nat → Option String) :
    List OneServerSocket → Nat → Option OneServerSocket →
    Option OneServerSocket → Option String → List OneServerSocket →
    List (Nat × String × String × String) → List (String × Nat) →
    List Nat → Bool → OpenResult
  | [], _idx, _good, bad, lastError, done, warns, ch, att, aok =>
    -- lines 267-273: after the loop, a still-set `bad` is fatal
    if bad.isSome then
      { sockets := closeAll done, ok := false, error := lastError,
        warnings := warns, chmods := ch, attempted := att, assertOk := aok }
    else
      { sockets := done, ok := true, error := none,
        warnings := warns, chmods := ch, attempted := att, assertOk := aok }
  | i :: rest, idx, good, bad, lastError, done, warns, ch, att, aok =>
    -- lines 225-229: previous group ended in an unforgiven failure
    if badDiffers bad i.serial then
      { sockets := closeAll (done ++ i :: rest), ok := false,
        error := lastError, warnings := warns, chmods := ch,
        attempted := att, assertOk := aok }
    else
      let r := i.openOne (bind idx)
      let att' := att ++ [idx]
      let aok' := aok && !r.assertViolated
      if r.ok then
        -- lines 256-264: mark as good, clear previous error
        openLoop bind rest (idx + 1) (some r.sock) none none
          (done ++ [r.sock]) warns (ch ++ r.chmods) att' aok'
      else if goodShares good i.serial then
        -- lines 233-242: a sibling already succeeded, warn and go on
        openLoop bind rest (idx + 1) good bad lastError (done ++ [i])
          (warns ++ [(idx, i.describe, r.errMsg, goodDescr good)])
          ch att' aok'
      else if bad.isNone then
        -- lines 243-251: first failure of the current group, record it
        openLoop bind rest (idx + 1) good (some i)
          (some ("Failed to bind to '" ++ i.describe ++ "': " ++ r.errMsg))
          (done ++ [i]) warns ch att' aok'
      else
        -- same group, already recorded: just continue (line 253)
        openLoop bind rest (idx + 1) good bad lastError (done ++ [i])
          warns ch att' aok'

/-- `ServerSocket::Open` (lines 215-274). -/
def ServerSocket.Open (st : ServerSocket) (bind : Nat → Option String) :
    OpenResult :=
  openLoop bind st.sockets 0 none none none [] [] [] [] true

/-- `ServerSocket::Close` (lines 276-282). -/
def ServerSocket.Close (st : ServerSocket) : ServerSocket :=
  { st with sockets := closeAll st.sockets }

/-- `ServerSocket::AddAddress` (lines 284-300, both overloads): append a
fresh unopened listener carrying the current `next_serial`. -/
def ServerSocket.AddAddress (st : ServerSocket) (a : Addr) : ServerSocket :=
  { st with sockets := st.sockets ++
      [{ serial := st.next_serial, path := none, address := a,
         isOpen := false }] }

/-- Apply a function to the last element of a list (the model of
mutating `sockets.back()` right after `emplace_back`). -/
def mapLast (f : OneServerSocket → OneServerSocket) :
    List OneServerSocket → List OneServerSocket
  | [] => []
  | [x] => [f x]
  | x :: y :: xs => x :: mapLast f (y :: xs)

/-- `ServerSocket::AddFD` (lines 302-322): query the descriptor's local
address (`sockname` oracle: `getsockname`'s outcome); on failure return
false with the prefixed error; on success `AddAddress` then `SetFD` (the
listener starts out open and registered).  `next_serial` is not
touched. -/
def ServerSocket.AddFD (st : ServerSocket) (sockname : Except String Addr) :
    ServerSocket × Bool × Option String :=
  match sockname with
  | .error e => (st, false, some ("Failed to get socket address: " ++ e))
  | .ok a =>
      let st1 := st.AddAddress a
      let socks := mapLast (fun s => { s with isOpen := true }) st1.sockets
      ({ st1 with sockets := socks }, true, none)

/-- `ServerSocket::AddPortIPv4` (lines 326-336): wildcard IPv4 address. -/
def ServerSocket.AddPortIPv4 (st : ServerSocket) (port : Nat) : ServerSocket :=
  st.AddAddress (Addr.ipv4Any port)

/-- `ServerSocket::AddPortIPv6` (lines 340-349): wildcard IPv6 address. -/
def ServerSocket.AddPortIPv6 (st : ServerSocket) (port : Nat) : ServerSocket :=
  st.AddAddress (Addr.ipv6Any port)

/-- `SupportsIPv6` (lines 354-364): try to create a throwaway
`AF_INET6` socket (the `socketResult` oracle gives the descriptor, or
`none` on failure); close it again; supported iff creation succeeded. -/
def SupportsIPv6 (socketResult : Option Nat) : Bool :=
  match socketResult with
  | none => false
  | some _ => true

/-- `ServerSocket::AddPort` (lines 370-394), `HAVE_TCP`/`HAVE_IPV6`
configuration: reject ports outside (0, 0xffff]; probe IPv6 support and
append the IPv6 wildcard listener if supported; always append the IPv4
wildcard listener; bump `next_serial` once. -/
def ServerSocket.AddPort (st : ServerSocket) (port : Nat)
    (ipv6Socket : Option Nat) : ServerSocket × Bool × Option String :=
  if port = 0 ∨ port > 0xffff then
    (st, false, some "Invalid TCP port")
  else
    let st1 := if SupportsIPv6 ipv6Socket then st.AddPortIPv6 port else st
    let st2 := st1.AddPortIPv4 port
    ({ st2 with next_serial := st2.next_serial + 1 }, true, none)

/-- `ServerSocket::AddHost` (lines 396-421), `HAVE_TCP` configuration:
resolve (the `resolved` oracle is `resolve_host_port`'s outcome,
propagated as-is on failure); append one listener per resolved address;
bump `next_serial` once. -/
def ServerSocket.AddHost (st : ServerSocket)
    (resolved : Except String (List Addr)) :
    ServerSocket × Bool × Option String :=
  match resolved with
  | .error e => (st, false, some e)
  | .ok addrs =>
      let st1 := addrs.foldl (fun s a => s.AddAddress a) st
      ({ st1 with next_serial := st1.next_serial + 1 }, true, none)

/-- Outcome of the `RemoveFile` call in `AddPath` (line 429): the entry
was removed, was absent, or could not be removed for another reason. -/
inductive RemoveOutcome where
  | removed : RemoveOutcome
  | absent : RemoveOutcome
  | failedOther : String → RemoveOutcome
deriving DecidableEq, Repr

/-- Observable outcome of `ServerSocket::AddPath`. -/
structure AddPathResult where
  st : ServerSocket
  ok : Bool
  error : Option String
  removeCalls : List String
deriving DecidableEq, Repr

/-- `ServerSocket::AddPath` (lines 423-445), `HAVE_UN` configuration:
`RemoveFile(path)` is called but its outcome is discarded by the source
(`(void)error;` and an unchecked call); then a local-socket listener is
appended and the path remembered on it via `SetPath`. -/
def ServerSocket.AddPath (st : ServerSocket) (path : String)
    (removeOutcome : RemoveOutcome) : AddPathResult :=
  let _ := removeOutcome
  let st1 := st.AddAddress (Addr.localPath path)
  let socks := mapLast (fun s => { s with path := some path }) st1.sockets
  { st := { st1 with sockets := socks },
    ok := true, error := none, removeCalls := [path] }

/-! ## Derived predicates used in the statements -/

/-- All serials of `ls` are at least `n`. -/
def serialLB (n : Nat) : List OneServerSocket → Bool
  | [] => true
  | l :: ls => decide (n ≤ l.serial) && serialLB n ls

/-- Serials are non-decreasing in insertion order (the `ServerSocket`
invariant asserted at line 223 and guaranteed by the add-request API). -/
def serialsSorted : List OneServerSocket → Bool
  | [] => true
  | l :: ls => serialLB l.serial ls && serialsSorted ls

/-- Some listener of `ls` carries serial `g`. -/
def groupOccurs : List OneServerSocket → Nat → Bool
  | [], _ => false
  | l :: ls, g => l.serial == g || groupOccurs ls g

/-- Some listener of `ls` (whose head sits at position `idx` of the whole
group) carries serial `g` and its bind succeeds. -/
def groupHasSuccess (bind : Nat → Option String) :
    Nat → List OneServerSocket → Nat → Bool
  | _, [], _ => false
  | idx, l :: ls, g =>
      (l.serial == g && (bind idx).isNone) ||
      groupHasSuccess bind (idx + 1) ls g

/-- Serial group `g` is present in `ls` and every one of its members
fails to bind. -/
def groupAllFail (bind : Nat → Option String) (idx : Nat)
    (ls : List OneServerSocket) (g : Nat) : Bool :=
  groupOccurs ls g && !(groupHasSuccess bind idx ls g)

/-- Position and value of the first listener of serial group `g`. -/
def firstMemberOfGroup : List OneServerSocket → Nat → Option (Nat × OneServerSocket)
  | [], _ => none
  | l :: ls, g =>
      if l.serial == g then some (0, l)
      else (firstMemberOfGroup ls g).map (fun p => (p.1 + 1, p.2))

/-- The positions `idx, idx+1, ..., idx+n-1`. -/
def rangeFrom (idx : Nat) : Nat → List Nat
  | 0 => []
  | n + 1 => idx :: rangeFrom (idx + 1) n

/-! ## Helper lemmas about the add-request API -/

theorem mapLast_append (f : OneServerSocket → OneServerSocket) :
    ∀ (xs : List OneServerSocket) (x : OneServerSocket),
      mapLast f (xs ++ [x]) = xs ++ [f x]
  | [], _ => rfl
  | a :: xs, x => by
      cases xs with
      | nil => rfl
      | cons b xs =>
          show a :: mapLast f ((b :: xs) ++ [x]) = a :: ((b :: xs) ++ [f x])
          rw [mapLast_append f (b :: xs) x]

/-- What a successful `AddFD` does to the group state. -/
theorem AddFD_ok_spec (st : ServerSocket) (a : Addr) :
    (st.AddFD (Except.ok a)).1
      = { sockets := st.sockets ++
            [{ serial := st.next_serial, path := none, address := a,
               isOpen := true }],
          next_serial := st.next_serial }
    ∧ (st.AddFD (Except.ok a)).2.1 = true := by
  refine ⟨?_, rfl⟩
  simp [ServerSocket.AddFD, ServerSocket.AddAddress, mapLast_append]

/-- What `AddPath` does to the group state, whatever `RemoveFile` says. -/
theorem AddPath_spec (st : ServerSocket) (path : String) (rm : RemoveOutcome) :
    (st.AddPath path rm).ok = true
    ∧ (st.AddPath path rm).error = none
    ∧ (st.AddPath path rm).removeCalls = [path]
    ∧ (st.AddPath path rm).st.sockets
        = st.sockets ++
            [{ serial := st.next_serial, path := some path,
               address := Addr.localPath path, isOpen := false }]
    ∧ (st.AddPath path rm).st.next_serial = st.next_serial := by
  refine ⟨rfl, rfl, rfl, ?_, rfl⟩
  simp [ServerSocket.AddPath, ServerSocket.AddAddress, mapLast_append]

/-- What a valid-port `AddPort` does to the group state. -/
theorem AddPort_valid_spec (st : ServerSocket) (port : Nat)
    (probe : Option Nat) (h0 : port ≠ 0) (h1 : port ≤ 65535) :
    (st.AddPort port probe).2.1 = true
    ∧ (st.AddPort port probe).2.2 = none
    ∧ (st.AddPort port probe).1.sockets
        = st.sockets
          ++ (if SupportsIPv6 probe then
                [{ serial := st.next_serial, path := none,
                   address := Addr.ipv6Any port, isOpen := false }]
              else [])
          ++ [{ serial := st.next_serial, path := none,
                address := Addr.ipv4Any port, isOpen := false }]
    ∧ (st.AddPort port probe).1.next_serial = st.next_serial + 1 := by
  have hc : ¬(port = 0 ∨ port > 0xffff) := by omega
  unfold ServerSocket.AddPort
  rw [if_neg hc]
  cases hp : SupportsIPv6 probe <;>
    simp [ServerSocket.AddPortIPv4, ServerSocket.AddPortIPv6,
      ServerSocket.AddAddress]

/-- What a successful `AddHost` does to the group state. -/
theorem AddHost_ok_sockets :
    ∀ (addrs : List Addr) (st : ServerSocket),
      (addrs.foldl (fun s a => s.AddAddress a) st).sockets
          = st.sockets ++ addrs.map
              (fun a => { serial := st.next_serial, path := none,
                          address := a, isOpen := false })
      ∧ (addrs.foldl (fun s a => s.AddAddress a) st).next_serial
          = st.next_serial
  | [], st => by simp
  | a :: addrs, st => by
      have ih := AddHost_ok_sockets addrs (st.AddAddress a)
      simp only [List.foldl_cons] at *
      refine ⟨?_, ih.2⟩
      rw [ih.1]
      simp [ServerSocket.AddAddress]

theorem AddHost_ok_spec (st : ServerSocket) (addrs : List Addr) :
    (st.AddHost (Except.ok addrs)).2.1 = true
    ∧ (st.AddHost (Except.ok addrs)).1.sockets
        = st.sockets ++ addrs.map
            (fun a => { serial := st.next_serial, path := none,
                        address := a, isOpen := false })
    ∧ (st.AddHost (Except.ok addrs)).1.next_serial = st.next_serial + 1 := by
  have h := AddHost_ok_sockets addrs st
  refine ⟨rfl, ?_, ?_⟩
  · simpa [ServerSocket.AddHost] using h.1
  · simp [ServerSocket.AddHost, h.2]

/-! ## Claim C4 -/

/-- C4 (counterexample): `AddPath` on a path whose removal fails for a
reason other than "does not exist" (here: a non-empty directory) still
returns success and still appends a listener, contradicting the claim
that such a removal failure makes `AddPath` fail and append nothing. -/
theorem addPath_removal_failure_cex :
    (ServerSocket.init.AddPath "/run/mpd.socket"
        (RemoveOutcome.failedOther "Directory not empty")).ok = true
    ∧ (ServerSocket.init.AddPath "/run/mpd.socket"
        (RemoveOutcome.failedOther "Directory not empty")).st.sockets.length
        = 1 := by
  decide

/-- C4 (amended): `AddPath` calls `RemoveFile(path)` but discards its
outcome entirely: whether the removal succeeded, found nothing to remove,
or failed for any other reason, `AddPath` returns success and appends
exactly one listener carrying the path. -/
theorem addPath_ignores_removal_outcome (st : ServerSocket) (path : String)
    (rm : RemoveOutcome) :
    (st.AddPath path rm).ok = true
    ∧ (st.AddPath path rm).error = none
    ∧ (st.AddPath path rm).removeCalls = [path]
    ∧ (st.AddPath path rm).st.sockets
        = st.sockets ++
            [{ serial := st.next_serial, path := some path,
               address := Addr.localPath path, isOpen := false }] :=
  ⟨(AddPath_spec st path rm).1, (AddPath_spec st path rm).2.1,
   (AddPath_spec st path rm).2.2.1, (AddPath_spec st path rm).2.2.2.1⟩

/-! ## Claim C5 -/

/-- C5: `AddPort` with a port equal to 0 or greater than 65535 fails
with the `InvalidArgument`-class error "Invalid TCP port" before doing
anything else: the group is returned unchanged (no listener appended,
`next_serial` untouched) and the IPv6 probe socket is never consulted. -/
theorem addPort_rejects_invalid_port (st : ServerSocket) (port : Nat)
    (probe : Option Nat) (h : port = 0 ∨ port > 65535) :
    (st.AddPort port probe).1 = st
    ∧ (st.AddPort port probe).2.1 = false
    ∧ (st.AddPort port probe).2.2 = some "Invalid TCP port" := by
  unfold ServerSocket.AddPort
  rw [if_pos h]
  exact ⟨rfl, rfl, rfl⟩

/-- C5 witness: `AddPort 0` on a fresh group. -/
theorem addPort_rejects_invalid_port_witness :
    (ServerSocket.init.AddPort 0 (some 3)).1 = ServerSocket.init
    ∧ (ServerSocket.init.AddPort 0 (some 3)).2.1 = false
    ∧ (ServerSocket.init.AddPort 0 (some 3)).2.2 = some "Invalid TCP port" :=
  addPort_rejects_invalid_port ServerSocket.init 0 (some 3) (Or.inl rfl)

/-! ## Claim C6 -/

/-- C6: for a valid port, `AddPort` probes IPv6 support (`SupportsIPv6`
applied to the outcome of the throwaway `socket(AF_INET6)` call); if the
probe succeeds it appends an IPv6 wildcard listener, then in every case
appends an IPv4 wildcard listener; both carry the serial that was current
on entry, and `next_serial` is incremented exactly once. -/
theorem addPort_appends_wildcards (st : ServerSocket) (port : Nat)
    (probe : Option Nat) (h0 : port ≠ 0) (h1 : port ≤ 65535) :
    (st.AddPort port probe).2.1 = true
    ∧ (st.AddPort port probe).1.sockets
        = st.sockets
          ++ (if SupportsIPv6 probe then
                [{ serial := st.next_serial, path := none,
                   address := Addr.ipv6Any port, isOpen := false }]
              else [])
          ++ [{ serial := st.next_serial, path := none,
                address := Addr.ipv4Any port, isOpen := false }]
    ∧ (st.AddPort port probe).1.next_serial = st.next_serial + 1 :=
  ⟨(AddPort_valid_spec st port probe h0 h1).1,
   (AddPort_valid_spec st port probe h0 h1).2.2.1,
   (AddPort_valid_spec st port probe h0 h1).2.2.2⟩

/-- C6 witness: `AddPort 6600` with a successful IPv6 probe. -/
theorem addPort_appends_wildcards_witness :
    (ServerSocket.init.AddPort 6600 (some 3)).2.1 = true
    ∧ (ServerSocket.init.AddPort 6600 (some 3)).1.sockets
        = ServerSocket.init.sockets
          ++ (if SupportsIPv6 (some 3) then
                [{ serial := ServerSocket.init.next_serial, path := none,
                   address := Addr.ipv6Any 6600, isOpen := false }]
              else [])
          ++ [{ serial := ServerSocket.init.next_serial, path := none,
                address := Addr.ipv4Any 6600, isOpen := false }]
    ∧ (ServerSocket.init.AddPort 6600 (some 3)).1.next_serial
        = ServerSocket.init.next_serial + 1 :=
  addPort_appends_wildcards ServerSocket.init 6600 (some 3)
    (by decide) (by decide)

/-! ## Claim C8 -/

theorem closeAll_idem : ∀ ls : List OneServerSocket,
    closeAll (closeAll ls) = closeAll ls
  | [] => rfl
  | l :: ls => congrArg (OneServerSocket.close l :: ·) (closeAll_idem ls)

theorem closeAll_of_closed : ∀ ls : List OneServerSocket,
    (∀ l ∈ ls, l.isOpen = false) → closeAll ls = ls
  | [], _ => rfl
  | l :: ls, h => by
      have h0 : l.isOpen = false := h l (List.mem_cons_self l ls)
      have ih := closeAll_of_closed ls
        (fun x hx => h x (List.mem_cons_of_mem l hx))
      cases l
      simp_all [closeAll, OneServerSocket.close]

/-- C8: `Close` never fails (it returns no error by construction) and is
idempotent: closing twice leaves the same state as closing once, and
closing a group with no open listener is a no-op. -/
theorem close_idempotent_and_noop (st : ServerSocket) :
    st.Close.Close = st.Close
    ∧ ((∀ l ∈ st.sockets, l.isOpen = false) → st.Close = st) := by
  constructor
  · cases st
    simp only [ServerSocket.Close]
    rw [closeAll_idem]
  · intro h
    cases st
    simp only [ServerSocket.Close]
    rw [closeAll_of_closed _ h]

/-- C8 witness: a group with one closed listener. -/
theorem close_idempotent_and_noop_witness :
    (ServerSocket.mk [⟨1, none, Addr.ipv4Any 80, false⟩] 2).Close.Close
      = (ServerSocket.mk [⟨1, none, Addr.ipv4Any 80, false⟩] 2).Close
    ∧ (ServerSocket.mk [⟨1, none, Addr.ipv4Any 80, false⟩] 2).Close
      = ServerSocket.mk [⟨1, none, Addr.ipv4Any 80, false⟩] 2 :=
  ⟨(close_idempotent_and_noop (ServerSocket.mk
      [⟨1, none, Addr.ipv4Any 80, false⟩] 2)).1,
   (close_idempotent_and_noop (ServerSocket.mk
      [⟨1, none, Addr.ipv4Any 80, false⟩] 2)).2 (by decide)⟩

/-! ## Claim C10 -/

/-- C10: `AddFD` appends a listener tagged with the current `next_serial`
without incrementing the counter, so the listeners appended by a
following `AddPort` (or resolved by a following `AddHost`) carry the very
same serial: the imported listener and that request's listeners form one
serial group for `Open`'s per-serial failure-forgiveness policy. -/
theorem addFD_joins_next_group (st : ServerSocket) (a : Addr) (port : Nat)
    (probe : Option Nat) (addrs : List Addr)
    (h0 : port ≠ 0) (h1 : port ≤ 65535) :
    ((st.AddFD (Except.ok a)).1.next_serial = st.next_serial)
    ∧ ((st.AddFD (Except.ok a)).1.sockets
        = st.sockets ++ [⟨st.next_serial, none, a, true⟩])
    ∧ (((st.AddFD (Except.ok a)).1.AddPort port probe).1.sockets
        = st.sockets ++ [⟨st.next_serial, none, a, true⟩]
          ++ (if SupportsIPv6 probe then
                [⟨st.next_serial, none, Addr.ipv6Any port, false⟩]
              else [])
          ++ [⟨st.next_serial, none, Addr.ipv4Any port, false⟩])
    ∧ (((st.AddFD (Except.ok a)).1.AddHost (Except.ok addrs)).1.sockets
        = st.sockets ++ [⟨st.next_serial, none, a, true⟩]
          ++ addrs.map (fun x => ⟨st.next_serial, none, x, false⟩)) := by
  obtain ⟨hfd, -⟩ := AddFD_ok_spec st a
  refine ⟨by rw [hfd], by rw [hfd], ?_, ?_⟩
  · have hp := (AddPort_valid_spec (st.AddFD (Except.ok a)).1 port probe
      h0 h1).2.2.1
    rw [hp, hfd]
  · have hh := (AddHost_ok_spec (st.AddFD (Except.ok a)).1 addrs).2.1
    rw [hh, hfd]

/-- C10 witness: one imported descriptor, then `AddPort 6600` or a
one-address `AddHost`. -/
theorem addFD_joins_next_group_witness :
    ((ServerSocket.init.AddFD
        (Except.ok (Addr.resolved "activation"))).1.next_serial
        = ServerSocket.init.next_serial)
    ∧ ((ServerSocket.init.AddFD
        (Except.ok (Addr.resolved "activation"))).1.sockets
        = ServerSocket.init.sockets
          ++ [⟨ServerSocket.init.next_serial, none,
               Addr.resolved "activation", true⟩])
    ∧ (((ServerSocket.init.AddFD
          (Except.ok (Addr.resolved "activation"))).1.AddPort 6600
          (some 3)).1.sockets
        = ServerSocket.init.sockets
          ++ [⟨ServerSocket.init.next_serial, none,
               Addr.resolved "activation", true⟩]
          ++ (if SupportsIPv6 (some 3) then
                [⟨ServerSocket.init.next_serial, none,
                  Addr.ipv6Any 6600, false⟩]
              else [])
          ++ [⟨ServerSocket.init.next_serial, none,
               Addr.ipv4Any 6600, false⟩])
    ∧ (((ServerSocket.init.AddFD
          (Except.ok (Addr.resolved "activation"))).1.AddHost
          (Except.ok [Addr.resolved "10.0.0.1:6600"])).1.sockets
        = ServerSocket.init.sockets
          ++ [⟨ServerSocket.init.next_serial, none,
               Addr.resolved "activation", true⟩]
          ++ [Addr.resolved "10.0.0.1:6600"].map
               (fun x => ⟨ServerSocket.init.next_serial, none, x, false⟩)) :=
  addFD_joins_next_group ServerSocket.init (Addr.resolved "activation")
    6600 (some 3) [Addr.resolved "10.0.0.1:6600"] (by decide) (by decide)

/-! ## Loop invariants of `ServerSocket::Open` -/

theorem closeAll_isOpen : ∀ (ls : List OneServerSocket)
    (l : OneServerSocket), l ∈ closeAll ls → l.isOpen = false := by
  intro ls l hl
  rcases List.mem_map.mp hl with ⟨x, -, rfl⟩
  rfl

/-- Walk step, rule 1 (lines 225-229): the serial changed while a failure
of the previous group is still pending: close everything and fail. -/
theorem openLoop_step_abort (bind : Nat → Option String)
    (i : OneServerSocket) (rest : List OneServerSocket) (idx : Nat)
    (good bad : Option OneServerSocket) (le : Option String)
    (done : List OneServerSocket)
    (warns : List (Nat × String × String × String))
    (ch : List (String × Nat)) (att : List Nat) (aok : Bool)
    (h : badDiffers bad i.serial = true) :
    openLoop bind (i :: rest) idx good bad le done warns ch att aok
      = { sockets := closeAll (done ++ i :: rest), ok := false, error := le,
          warnings := warns, chmods := ch, attempted := att,
          assertOk := aok } := by
  simp [openLoop, h]

/-- Walk step, successful bind (lines 256-264). -/
theorem openLoop_step_success (bind : Nat → Option String)
    (i : OneServerSocket) (rest : List OneServerSocket) (idx : Nat)
    (good bad : Option OneServerSocket) (le : Option String)
    (done : List OneServerSocket)
    (warns : List (Nat × String × String × String))
    (ch : List (String × Nat)) (att : List Nat) (aok : Bool)
    (hbd : badDiffers bad i.serial = false) (hb : bind idx = none) :
    openLoop bind (i :: rest) idx good bad le done warns ch att aok
      = openLoop bind rest (idx + 1) (some { i with isOpen := true }) none
          none (done ++ [{ i with isOpen := true }]) warns
          (ch ++ pathChmods i) (att ++ [idx]) (aok && !i.isOpen) := by
  simp [openLoop, hbd, hb, OneServerSocket.openOne]

/-- Walk step, forgiven failure (lines 233-242): a sibling of the same
group already succeeded, only warn. -/
theorem openLoop_step_warn (bind : Nat → Option String)
    (i : OneServerSocket) (rest : List OneServerSocket) (idx : Nat)
    (good bad : Option OneServerSocket) (le : Option String)
    (done : List OneServerSocket)
    (warns : List (Nat × String × String × String))
    (ch : List (String × Nat)) (att : List Nat) (aok : Bool) (e : String)
    (hbd : badDiffers bad i.serial = false) (hb : bind idx = some e)
    (hg : goodShares good i.serial = true) :
    openLoop bind (i :: rest) idx good bad le done warns ch att aok
      = openLoop bind rest (idx + 1) good bad le (done ++ [i])
          (warns ++ [(idx, i.describe, e, goodDescr good)]) ch (att ++ [idx])
          (aok && !i.isOpen) := by
  simp [openLoop, hbd, hb, hg, OneServerSocket.openOne]

/-- Walk step, first failure of the current group (lines 243-251). -/
theorem openLoop_step_record (bind : Nat → Option String)
    (i : OneServerSocket) (rest : List OneServerSocket) (idx : Nat)
    (good bad : Option OneServerSocket) (le : Option String)
    (done : List OneServerSocket)
    (warns : List (Nat × String × String × String))
    (ch : List (String × Nat)) (att : List Nat) (aok : Bool) (e : String)
    (hbd : badDiffers bad i.serial = false) (hb : bind idx = some e)
    (hg : goodShares good i.serial = false) (hbn : bad = none) :
    openLoop bind (i :: rest) idx good bad le done warns ch att aok
      = openLoop bind rest (idx + 1) good (some i)
          (some ("Failed to bind to '" ++ i.describe ++ "': " ++ e))
          (done ++ [i]) warns ch (att ++ [idx]) (aok && !i.isOpen) := by
  subst hbn
  simp [openLoop, hbd, hb, hg, OneServerSocket.openOne]

/-- Walk step, repeated failure of the current group (line 253): nothing
recorded, walk on. -/
theorem openLoop_step_skip (bind : Nat → Option String)
    (i : OneServerSocket) (rest : List OneServerSocket) (idx : Nat)
    (good : Option OneServerSocket) (b : OneServerSocket)
    (le : Option String) (done : List OneServerSocket)
    (warns : List (Nat × String × String × String))
    (ch : List (String × Nat)) (att : List Nat) (aok : Bool) (e : String)
    (hbd : badDiffers (some b) i.serial = false) (hb : bind idx = some e)
    (hg : goodShares good i.serial = false) :
    openLoop bind (i :: rest) idx good (some b) le done warns ch att aok
      = openLoop bind rest (idx + 1) good (some b) le (done ++ [i]) warns ch
          (att ++ [idx]) (aok && !i.isOpen) := by
  simp [openLoop, hbd, hb, hg, OneServerSocket.openOne]

/-- The walk neither adds nor drops listeners. -/
theorem openLoop_length (bind : Nat → Option String)
    (rest : List OneServerSocket) :
    ∀ (idx : Nat) (good bad : Option OneServerSocket) (le : Option String)
      (done : List OneServerSocket)
      (warns : List (Nat × String × String × String))
      (ch : List (String × Nat)) (att : List Nat) (aok : Bool),
      (openLoop bind rest idx good bad le done warns ch att aok).sockets.length
        = done.length + rest.length := by
  induction rest with
  | nil =>
      intro idx good bad le done warns ch att aok
      cases bad <;> simp [openLoop, closeAll]
  | cons i rest ih =>
      intro idx good bad le done warns ch att aok
      simp only [openLoop]
      split
      · simp [closeAll]
        try omega
      · split
        · rw [ih]
          simp
          try omega
        · split
          · rw [ih]
            simp
            try omega
          · split
            · rw [ih]
              simp
              try omega
            · rw [ih]
              simp
              try omega

/-- On the failure exits the walk has closed every listener. -/
theorem openLoop_fail_closed (bind : Nat → Option String)
    (rest : List OneServerSocket) :
    ∀ (idx : Nat) (good bad : Option OneServerSocket) (le : Option String)
      (done : List OneServerSocket)
      (warns : List (Nat × String × String × String))
      (ch : List (String × Nat)) (att : List Nat) (aok : Bool),
      (openLoop bind rest idx good bad le done warns ch att aok).ok = false →
      ∀ l ∈ (openLoop bind rest idx good bad le done warns ch att aok).sockets,
        l.isOpen = false := by
  induction rest with
  | nil =>
      intro idx good bad le done warns ch att aok hok l hl
      cases bad with
      | none => simp [openLoop] at hok
      | some b =>
          simp only [openLoop, Option.isSome_some, if_pos] at hl
          exact closeAll_isOpen _ _ hl
  | cons i rest ih =>
      intro idx good bad le done warns ch att aok hok l hl
      simp only [openLoop] at hok hl
      by_cases hbd : badDiffers bad i.serial = true
      · simp only [hbd, if_pos] at hl
        exact closeAll_isOpen _ _ hl
      · simp only [hbd, if_neg, Bool.false_eq_true, not_false_eq_true] at hok hl
        split at hok <;> rename_i h1
        · rw [if_pos h1] at hl
          exact ih _ _ _ _ _ _ _ _ _ hok _ hl
        · rw [if_neg h1] at hl
          split at hok <;> rename_i h2
          · rw [if_pos h2] at hl
            exact ih _ _ _ _ _ _ _ _ _ hok _ hl
          · rw [if_neg h2] at hl
            split at hok <;> rename_i h3
            · rw [if_pos h3] at hl
              exact ih _ _ _ _ _ _ _ _ _ hok _ hl
            · rw [if_neg h3] at hl
              exact ih _ _ _ _ _ _ _ _ _ hok _ hl

theorem get?_shift (i : OneServerSocket) (rest : List OneServerSocket)
    (j idx : Nat) (h : idx + 1 ≤ j) :
    rest.get? (j - (idx + 1)) = (i :: rest).get? (j - idx) := by
  have hj : j - idx = (j - (idx + 1)) + 1 := by omega
  rw [hj]
  rfl

/-- The chmod accumulator only grows along the walk. -/
theorem openLoop_chmods_mono (bind : Nat → Option String)
    (rest : List OneServerSocket) :
    ∀ (idx : Nat) (good bad : Option OneServerSocket) (le : Option String)
      (done : List OneServerSocket)
      (warns : List (Nat × String × String × String))
      (ch : List (String × Nat)) (att : List Nat) (aok : Bool)
      (x : String × Nat), x ∈ ch →
      x ∈ (openLoop bind rest idx good bad le done warns ch att aok).chmods := by
  induction rest with
  | nil =>
      intro idx good bad le done warns ch att aok x hx
      cases bad <;> simpa [openLoop] using hx
  | cons i rest ih =>
      intro idx good bad le done warns ch att aok x hx
      simp only [openLoop]
      split
      · simpa using hx
      · split
        · exact ih _ _ _ _ _ _ _ _ _ _ (List.mem_append_left _ hx)
        · split
          · exact ih _ _ _ _ _ _ _ _ _ _ hx
          · split
            · exact ih _ _ _ _ _ _ _ _ _ _ hx
            · exact ih _ _ _ _ _ _ _ _ _ _ hx

/-- C9 loop invariant: every attempted position is either an inherited
one or lies in the walked segment, and if its bind succeeded and its
listener carried a local path then the 0666 chmod of that path is among
the recorded chmod calls. -/
theorem openLoop_attempted_chmod (bind : Nat → Option String)
    (rest : List OneServerSocket) :
    ∀ (idx : Nat) (good bad : Option OneServerSocket) (le : Option String)
      (done : List OneServerSocket)
      (warns : List (Nat × String × String × String))
      (ch : List (String × Nat)) (att : List Nat) (aok : Bool) (j : Nat),
      j ∈ (openLoop bind rest idx good bad le done warns ch att aok).attempted →
      j ∈ att ∨ (idx ≤ j ∧ ∃ lj, rest.get? (j - idx) = some lj ∧
        (bind j = none → ∀ p, lj.path = some p →
          (p, 0o666) ∈
            (openLoop bind rest idx good bad le done warns ch att aok).chmods)) := by
  induction rest with
  | nil =>
      intro idx good bad le done warns ch att aok j hj
      cases bad <;> simp [openLoop] at hj <;> exact Or.inl hj
  | cons i rest ih =>
      intro idx good bad le done warns ch att aok j hj
      simp only [openLoop] at hj ⊢
      split at hj
      · exact Or.inl hj
      · rename_i hbd
        rw [if_neg hbd]
        split at hj <;> rename_i h1
        · -- bind idx succeeded
          rw [if_pos h1]
          rcases ih _ _ _ _ _ _ _ _ _ _ hj with hin | ⟨hle, lj, hget, himp⟩
          · rcases List.mem_append.mp hin with hin | hin
            · exact Or.inl hin
            · have hji : j = idx := List.mem_singleton.mp hin
              subst hji
              refine Or.inr ⟨Nat.le_refl j, i, by simp, fun hb p hp => ?_⟩
              have hch : (p, 0o666) ∈
                  ch ++ (i.openOne (bind j)).chmods := by
                rw [hb]
                simp [OneServerSocket.openOne, pathChmods, hp]
              exact openLoop_chmods_mono bind rest _ _ _ _ _ _ _ _ _ _ hch
          · refine Or.inr ⟨by omega, lj, ?_, himp⟩
            rw [← get?_shift i rest j idx hle]
            exact hget
        · rw [if_neg h1]
          have hfail : ∃ e, bind idx = some e := by
            cases hb : bind idx with
            | none => rw [hb] at h1; simp [OneServerSocket.openOne] at h1
            | some e => exact ⟨e, rfl⟩
          obtain ⟨e, hb⟩ := hfail
          split at hj <;> rename_i h2
          · rw [if_pos h2]
            rcases ih _ _ _ _ _ _ _ _ _ _ hj with hin | ⟨hle, lj, hget, himp⟩
            · rcases List.mem_append.mp hin with hin | hin
              · exact Or.inl hin
              · have hji : j = idx := List.mem_singleton.mp hin
                subst hji
                refine Or.inr ⟨Nat.le_refl j, i, by simp, fun hbn => ?_⟩
                rw [hbn] at hb
                exact absurd hb (by simp)
            · refine Or.inr ⟨by omega, lj, ?_, himp⟩
              rw [← get?_shift i rest j idx hle]
              exact hget
          · rw [if_neg h2]
            split at hj <;> rename_i h3
            · rw [if_pos h3]
              rcases ih _ _ _ _ _ _ _ _ _ _ hj with hin | ⟨hle, lj, hget, himp⟩
              · rcases List.mem_append.mp hin with hin | hin
                · exact Or.inl hin
                · have hji : j = idx := List.mem_singleton.mp hin
                  subst hji
                  refine Or.inr ⟨Nat.le_refl j, i, by simp, fun hbn => ?_⟩
                  rw [hbn] at hb
                  exact absurd hb (by simp)
              · refine Or.inr ⟨by omega, lj, ?_, himp⟩
                rw [← get?_shift i rest j idx hle]
                exact hget
            · rw [if_neg h3]
              rcases ih _ _ _ _ _ _ _ _ _ _ hj with hin | ⟨hle, lj, hget, himp⟩
              · rcases List.mem_append.mp hin with hin | hin
                · exact Or.inl hin
                · have hji : j = idx := List.mem_singleton.mp hin
                  subst hji
                  refine Or.inr ⟨Nat.le_refl j, i, by simp, fun hbn => ?_⟩
                  rw [hbn] at hb
                  exact absurd hb (by simp)
              · refine Or.inr ⟨by omega, lj, ?_, himp⟩
                rw [← get?_shift i rest j idx hle]
                exact hget

/-- C7 loop invariant: with every bind succeeding the walk attempts every
position, and the assertion flag records whether some listener was
already open. -/
theorem openLoop_attempts_all (bind : Nat → Option String)
    (rest : List OneServerSocket) :
    ∀ (idx : Nat) (good : Option OneServerSocket) (le : Option String)
      (done : List OneServerSocket)
      (warns : List (Nat × String × String × String))
      (ch : List (String × Nat)) (att : List Nat) (aok : Bool),
      (∀ k, bind k = none) →
      (openLoop bind rest idx good none le done warns ch att aok).attempted
          = att ++ rangeFrom idx rest.length
      ∧ (openLoop bind rest idx good none le done warns ch att aok).assertOk
          = (aok && rest.all (fun l => !l.isOpen)) := by
  induction rest with
  | nil =>
      intro idx good le done warns ch att aok hb
      simp [openLoop, rangeFrom]
  | cons i rest ih =>
      intro idx good le done warns ch att aok hb
      rw [openLoop_step_success bind i rest idx good none le done warns ch
        att aok rfl (hb idx)]
      rcases ih (idx + 1) (some { i with isOpen := true })
        none (done ++ [{ i with isOpen := true }]) warns (ch ++ pathChmods i)
        (att ++ [idx]) (aok && !i.isOpen) hb with ⟨h1, h2⟩
      refine ⟨?_, ?_⟩
      · rw [h1]
        simp [rangeFrom]
      · rw [h2]
        simp [Bool.and_assoc]

/-! ## Claim C3 -/

/-- C3: whenever `Open` returns failure, every listener of the group is
closed afterwards: the listener list keeps its length and every entry has
`IsDefined()` false (the close-everything rollback of lines 226 and 268
ran). -/
theorem open_failure_closes_all (st : ServerSocket)
    (bind : Nat → Option String) (h : (st.Open bind).ok = false) :
    (st.Open bind).sockets.length = st.sockets.length
    ∧ ∀ l ∈ (st.Open bind).sockets, l.isOpen = false := by
  constructor
  · have hlen := openLoop_length bind st.sockets 0 none none none [] [] [] []
      true
    simpa [ServerSocket.Open] using hlen
  · intro l hl
    simp only [ServerSocket.Open] at h hl
    exact openLoop_fail_closed bind st.sockets 0 none none none [] [] [] []
      true h l hl

/-- C3 witness: a one-listener group whose bind fails. -/
theorem open_failure_closes_all_witness :
    ((ServerSocket.mk [⟨1, none, Addr.ipv4Any 80, false⟩] 2).Open
        (fun _ => some "boom")).sockets.length
      = (ServerSocket.mk [⟨1, none, Addr.ipv4Any 80, false⟩] 2).sockets.length
    ∧ ∀ l ∈ ((ServerSocket.mk [⟨1, none, Addr.ipv4Any 80, false⟩] 2).Open
        (fun _ => some "boom")).sockets, l.isOpen = false :=
  open_failure_closes_all (ServerSocket.mk [⟨1, none, Addr.ipv4Any 80, false⟩] 2)
    (fun _ => some "boom") (by decide)

/-! ## Claim C7 -/

/-- C7 (amended): `Open` does not skip already-open listeners.  When no
abort happens (e.g. every bind succeeds) the walk attempts the bind of
every position, open or not, and the `assert(!IsDefined())` precondition
of `OneServerSocket::Open` holds on the call iff no listener was already
open; a group holding an already-open listener (such as one imported by
`AddFD`) therefore violates that per-listener precondition instead of
being left as-is. -/
theorem open_attempts_every_listener (st : ServerSocket)
    (bind : Nat → Option String) (h : ∀ k, bind k = none) :
    (st.Open bind).attempted = rangeFrom 0 st.sockets.length
    ∧ (st.Open bind).assertOk = st.sockets.all (fun l => !l.isOpen) := by
  have hall := openLoop_attempts_all bind st.sockets 0 none none [] [] [] []
    true h
  simpa [ServerSocket.Open] using hall

/-- C7 witness: the `AddFD`-style group of the counterexample. -/
theorem open_attempts_every_listener_witness :
    ((ServerSocket.mk [⟨1, none, Addr.resolved "activation", true⟩] 2).Open
        (fun _ => none)).attempted
      = rangeFrom 0 (ServerSocket.mk
          [⟨1, none, Addr.resolved "activation", true⟩] 2).sockets.length
    ∧ ((ServerSocket.mk [⟨1, none, Addr.resolved "activation", true⟩] 2).Open
        (fun _ => none)).assertOk
      = (ServerSocket.mk [⟨1, none, Addr.resolved "activation", true⟩]
          2).sockets.all (fun l => !l.isOpen) :=
  open_attempts_every_listener
    (ServerSocket.mk [⟨1, none, Addr.resolved "activation", true⟩] 2)
    (fun _ => none) (fun _ => rfl)

/-! ## Claim C9 -/

/-- C9: a listener created by `AddPath` carries its path, and during
`Open`, as soon as the bind of a path-carrying listener succeeds, the
walk records `chmod(path, 0666)` for it. -/
theorem open_chmods_addPath_listener (st : ServerSocket) (path : String)
    (rm : RemoveOutcome) (st' : ServerSocket) (bind : Nat → Option String)
    (i : Nat) (l : OneServerSocket) (p : String)
    (hget : st'.sockets.get? i = some l) (hpath : l.path = some p)
    (hbind : bind i = none) (hatt : i ∈ (st'.Open bind).attempted) :
    ((st.AddPath path rm).st.sockets
        = st.sockets ++ [⟨st.next_serial, some path, Addr.localPath path,
            false⟩])
    ∧ (p, 0o666) ∈ (st'.Open bind).chmods := by
  refine ⟨(AddPath_spec st path rm).2.2.2.1, ?_⟩
  simp only [ServerSocket.Open] at hatt ⊢
  rcases openLoop_attempted_chmod bind st'.sockets 0 none none none [] [] []
      [] true i hatt with hin | ⟨-, lj, hgetj, himp⟩
  · simp at hin
  · rw [Nat.sub_zero] at hgetj
    rw [hget] at hgetj
    have hlj : lj = l := Option.some_injective _ hgetj.symm
    subst hlj
    exact himp hbind p hpath

/-- C9 witness: a fresh group, `AddPath`, then `Open` with a succeeding
bind. -/
theorem open_chmods_addPath_listener_witness :
    ((ServerSocket.init.AddPath "/run/mpd.sock" RemoveOutcome.removed).st.sockets
        = ServerSocket.init.sockets
          ++ [⟨ServerSocket.init.next_serial, some "/run/mpd.sock",
               Addr.localPath "/run/mpd.sock", false⟩])
    ∧ ("/run/mpd.sock", 0o666) ∈
        (((ServerSocket.init.AddPath "/run/mpd.sock"
            RemoveOutcome.removed).st).Open (fun _ => none)).chmods :=
  open_chmods_addPath_listener ServerSocket.init "/run/mpd.sock"
    RemoveOutcome.removed
    ((ServerSocket.init.AddPath "/run/mpd.sock" RemoveOutcome.removed).st)
    (fun _ => none) 0
    ⟨1, some "/run/mpd.sock", Addr.localPath "/run/mpd.sock", false⟩
    "/run/mpd.sock" (by decide) rfl rfl (by decide)

/-! ## Serial-group bookkeeping lemmas -/

theorem groupHasSuccess_occurs (bind : Nat → Option String) :
    ∀ (ls : List OneServerSocket) (idx g : Nat),
      groupHasSuccess bind idx ls g = true → groupOccurs ls g = true
  | [], _, _, h => by simp [groupHasSuccess] at h
  | l :: ls, idx, g, h => by
      simp only [groupHasSuccess, Bool.or_eq_true, Bool.and_eq_true] at h
      simp only [groupOccurs, Bool.or_eq_true]
      rcases h with ⟨h1, -⟩ | h2
      · exact Or.inl h1
      · exact Or.inr (groupHasSuccess_occurs bind ls (idx + 1) g h2)

theorem groupOccurs_lb :
    ∀ (ls : List OneServerSocket) (s g : Nat),
      serialLB s ls = true → groupOccurs ls g = true → s ≤ g
  | [], s, g, _, h => by simp [groupOccurs] at h
  | l :: ls, s, g, hlb, h => by
      simp only [serialLB, Bool.and_eq_true, decide_eq_true_eq] at hlb
      simp only [groupOccurs, Bool.or_eq_true] at h
      rcases h with h1 | h2
      · have he : l.serial = g := by simpa using h1
        omega
      · exact groupOccurs_lb ls s g hlb.2 h2

theorem goodShares_eq (good : Option OneServerSocket) (s : Nat)
    (h : goodShares good s = true) :
    ∃ gd, good = some gd ∧ gd.serial = s := by
  cases good with
  | none => simp [goodShares] at h
  | some gd => exact ⟨gd, rfl, by simpa [goodShares] using h⟩

theorem badDiffers_eq (b : OneServerSocket) (s : Nat)
    (h : badDiffers (some b) s = false) : b.serial = s := by
  simpa [badDiffers] using h

theorem serialsSorted_cons (i : OneServerSocket) (rest : List OneServerSocket)
    (h : serialsSorted (i :: rest) = true) :
    serialLB i.serial rest = true ∧ serialsSorted rest = true := by
  simpa [serialsSorted, Bool.and_eq_true] using h

theorem serialLB_cons_elim (n : Nat) (l : OneServerSocket)
    (ls : List OneServerSocket) (h : serialLB n (l :: ls) = true) :
    n ≤ l.serial ∧ serialLB n ls = true := by
  simpa [serialLB, Bool.and_eq_true] using h

/-- A group absent from the walked head but entirely failing in the tail
also entirely fails from the head on. -/
theorem groupAllFail_lift (bind : Nat → Option String)
    (i : OneServerSocket) (rest : List OneServerSocket) (idx g : Nat)
    (hgi : i.serial ≠ g) (hocc : groupOccurs rest g = true)
    (hgs : groupHasSuccess bind (idx + 1) rest g = false) :
    groupAllFail bind idx (i :: rest) g = true := by
  have hne : (i.serial == g) = false := beq_eq_false_iff_ne.mpr hgi
  simp [groupAllFail, groupOccurs, groupHasSuccess, hne, hocc, hgs]

/-- When the head of the walk fails and its group is not already covered
by the rolling good listener, the group must find a success further on
(otherwise it would fail entirely yet be uncovered). -/
theorem record_group_saved (bind : Nat → Option String)
    (i : OneServerSocket) (rest : List OneServerSocket) (idx : Nat)
    (good : Option OneServerSocket) (e : String)
    (hg : goodShares good i.serial = false) (hb : bind idx = some e)
    (hgrp : ∀ g, groupAllFail bind idx (i :: rest) g = true →
      ∃ gd, good = some gd ∧ gd.serial = g) :
    groupHasSuccess bind (idx + 1) rest i.serial = true := by
  by_contra hc
  have hfalse : groupHasSuccess bind (idx + 1) rest i.serial = false :=
    Bool.eq_false_iff.mpr hc
  have hall : groupAllFail bind idx (i :: rest) i.serial = true := by
    simp [groupAllFail, groupOccurs, groupHasSuccess, hb, hfalse]
  obtain ⟨gd, hgde, hgds⟩ := hgrp _ hall
  rw [hgde] at hg
  simp [goodShares, hgds] at hg

/-! ## The success direction of the `Open` failure policy -/

/-- Master lemma for C1: if the remaining listeners are serial-sorted,
the rolling good listener's serial bounds them from below, a pending bad
entry (if any) bounds them from below and its group still finds a success
in the remainder, and every group failing entirely within the remainder
is covered by the rolling good listener, then the walk ends in success
with no error. -/
theorem openLoop_success (bind : Nat → Option String) :
    ∀ (rest : List OneServerSocket) (idx : Nat)
      (good bad : Option OneServerSocket) (le : Option String)
      (done : List OneServerSocket)
      (warns : List (Nat × String × String × String))
      (ch : List (String × Nat)) (att : List Nat) (aok : Bool),
      serialsSorted rest = true →
      (∀ gd, good = some gd → serialLB gd.serial rest = true) →
      (∀ b, bad = some b → serialLB b.serial rest = true ∧
          groupHasSuccess bind idx rest b.serial = true) →
      (∀ g, groupAllFail bind idx rest g = true →
          ∃ gd, good = some gd ∧ gd.serial = g) →
      (openLoop bind rest idx good bad le done warns ch att aok).ok = true ∧
      (openLoop bind rest idx good bad le done warns ch att aok).error
        = none := by
  intro rest
  induction rest with
  | nil =>
      intro idx good bad le done warns ch att aok hsort hgood hbad hgrp
      cases bad with
      | none => simp [openLoop]
      | some b =>
          have hgs := (hbad b rfl).2
          simp [groupHasSuccess] at hgs
  | cons i rest ih =>
      intro idx good bad le done warns ch att aok hsort hgood hbad hgrp
      obtain ⟨hlbi, hsort'⟩ := serialsSorted_cons i rest hsort
      have hbd : badDiffers bad i.serial = false := by
        cases bad with
        | none => rfl
        | some b =>
            obtain ⟨hlb, hgs⟩ := hbad b rfl
            obtain ⟨hble, -⟩ := serialLB_cons_elim _ _ _ hlb
            have hbe : b.serial = i.serial := by
              simp only [groupHasSuccess, Bool.or_eq_true,
                Bool.and_eq_true] at hgs
              rcases hgs with ⟨h1, -⟩ | h2
              · have hie : i.serial = b.serial := by simpa using h1
                omega
              · have hocc := groupHasSuccess_occurs bind rest (idx + 1)
                  b.serial h2
                have := groupOccurs_lb rest i.serial b.serial hlbi hocc
                omega
            simp [badDiffers, hbe]
      cases hb : bind idx with
      | none =>
          rw [openLoop_step_success bind i rest idx good bad le done warns
            ch att aok hbd hb]
          refine ih (idx + 1) (some { i with isOpen := true }) none none
            (done ++ [{ i with isOpen := true }]) warns (ch ++ pathChmods i)
            (att ++ [idx]) (aok && !i.isOpen) hsort' ?_ ?_ ?_
          · intro gd hgd
            cases hgd
            exact hlbi
          · intro b hb'
            cases hb'
          · intro g hga
            simp only [groupAllFail, Bool.and_eq_true,
              Bool.not_eq_true'] at hga
            by_cases hgi : i.serial = g
            · exact ⟨{ i with isOpen := true }, rfl, hgi⟩
            · exfalso
              obtain ⟨gd, hgde, hgds⟩ := hgrp g
                (groupAllFail_lift bind i rest idx g hgi hga.1 hga.2)
              have h1 := (serialLB_cons_elim _ _ _ (hgood gd hgde)).1
              have h2 := groupOccurs_lb rest i.serial g hlbi hga.1
              omega
      | some e =>
          cases hg : goodShares good i.serial with
          | true =>
              rw [openLoop_step_warn bind i rest idx good bad le done warns
                ch att aok e hbd hb hg]
              refine ih (idx + 1) good bad le (done ++ [i])
                (warns ++ [(idx, i.describe, e, goodDescr good)]) ch
                (att ++ [idx]) (aok && !i.isOpen) hsort' ?_ ?_ ?_
              · intro gd hgd
                exact (serialLB_cons_elim _ _ _ (hgood gd hgd)).2
              · intro b hb'
                obtain ⟨hlb, hgs⟩ := hbad b hb'
                refine ⟨(serialLB_cons_elim _ _ _ hlb).2, ?_⟩
                simp only [groupHasSuccess, Bool.or_eq_true,
                  Bool.and_eq_true] at hgs
                rcases hgs with ⟨-, hisNone⟩ | h2
                · rw [hb] at hisNone
                  simp at hisNone
                · exact h2
              · intro g hga
                simp only [groupAllFail, Bool.and_eq_true,
                  Bool.not_eq_true'] at hga
                by_cases hgi : i.serial = g
                · obtain ⟨gd, hgde, hgds⟩ := goodShares_eq good i.serial hg
                  exact ⟨gd, hgde, by omega⟩
                · exact hgrp g
                    (groupAllFail_lift bind i rest idx g hgi hga.1 hga.2)
          | false =>
              have hsaved :
                  groupHasSuccess bind (idx + 1) rest i.serial = true := by
                cases bad with
                | none =>
                    exact record_group_saved bind i rest idx good e hg hb hgrp
                | some b =>
                    have hbe := badDiffers_eq b i.serial hbd
                    have hgs := (hbad b rfl).2
                    simp only [groupHasSuccess, Bool.or_eq_true,
                      Bool.and_eq_true] at hgs
                    rcases hgs with ⟨-, hisNone⟩ | h2
                    · rw [hb] at hisNone
                      simp at hisNone
                    · rw [← hbe]
                      exact h2
              cases bad with
              | none =>
                  rw [openLoop_step_record bind i rest idx good none le done
                    warns ch att aok e hbd hb hg rfl]
                  refine ih (idx + 1) good (some i)
                    (some ("Failed to bind to '" ++ i.describe ++ "': " ++ e))
                    (done ++ [i]) warns ch (att ++ [idx]) (aok && !i.isOpen)
                    hsort' ?_ ?_ ?_
                  · intro gd hgd
                    exact (serialLB_cons_elim _ _ _ (hgood gd hgd)).2
                  · intro b hb'
                    cases hb'
                    exact ⟨hlbi, hsaved⟩
                  · intro g hga
                    simp only [groupAllFail, Bool.and_eq_true,
                      Bool.not_eq_true'] at hga
                    by_cases hgi : i.serial = g
                    · exfalso
                      rw [hgi] at hsaved
                      rw [hsaved] at hga
                      exact absurd hga.2 (by simp)
                    · exact hgrp g
                        (groupAllFail_lift bind i rest idx g hgi hga.1 hga.2)
              | some b =>
                  rw [openLoop_step_skip bind i rest idx good b le done warns
                    ch att aok e hbd hb hg]
                  refine ih (idx + 1) good (some b) le (done ++ [i]) warns ch
                    (att ++ [idx]) (aok && !i.isOpen) hsort' ?_ ?_ ?_
                  · intro gd hgd
                    exact (serialLB_cons_elim _ _ _ (hgood gd hgd)).2
                  · intro b' hb'
                    cases hb'
                    have hbe := badDiffers_eq b i.serial hbd
                    refine ⟨(serialLB_cons_elim _ _ _ (hbad b rfl).1).2, ?_⟩
                    rw [hbe]
                    exact hsaved
                  · intro g hga
                    simp only [groupAllFail, Bool.and_eq_true,
                      Bool.not_eq_true'] at hga
                    by_cases hgi : i.serial = g
                    · exfalso
                      rw [hgi] at hsaved
                      rw [hsaved] at hga
                      exact absurd hga.2 (by simp)
                    · exact hgrp g
                        (groupAllFail_lift bind i rest idx g hgi hga.1 hga.2)

/-! ## The failure direction of the `Open` failure policy -/

/-- A pending bad entry whose group still finds a success ahead shares
the serial of the next listener (rule 1 does not fire). -/
theorem pending_bad_matches (bind : Nat → Option String)
    (i : OneServerSocket) (rest : List OneServerSocket) (idx : Nat)
    (b : OneServerSocket) (hlbi : serialLB i.serial rest = true)
    (hlb : serialLB b.serial (i :: rest) = true)
    (hgs : groupHasSuccess bind idx (i :: rest) b.serial = true) :
    badDiffers (some b) i.serial = false := by
  obtain ⟨hble, -⟩ := serialLB_cons_elim _ _ _ hlb
  have hbe : b.serial = i.serial := by
    simp only [groupHasSuccess, Bool.or_eq_true, Bool.and_eq_true] at hgs
    rcases hgs with ⟨h1, -⟩ | h2
    · have hie : i.serial = b.serial := by simpa using h1
      omega
    · have hocc := groupHasSuccess_occurs bind rest (idx + 1) b.serial h2
      have := groupOccurs_lb rest i.serial b.serial hlbi hocc
      omega
  simp [badDiffers, hbe]

/-- If the recorded failure's group finds no success in the remaining
walk, the walk fails and returns the stored error unchanged (rule 1 at
the next serial change, or the after-loop check). -/
theorem openLoop_bad_doomed (bind : Nat → Option String) :
    ∀ (rest : List OneServerSocket) (idx : Nat)
      (good : Option OneServerSocket) (b : OneServerSocket)
      (le : Option String) (done : List OneServerSocket)
      (warns : List (Nat × String × String × String))
      (ch : List (String × Nat)) (att : List Nat) (aok : Bool),
      serialLB b.serial rest = true →
      groupHasSuccess bind idx rest b.serial = false →
      (openLoop bind rest idx good (some b) le done warns ch att aok).ok
          = false
      ∧ (openLoop bind rest idx good (some b) le done warns ch att
          aok).error = le := by
  intro rest
  induction rest with
  | nil =>
      intro idx good b le done warns ch att aok hlb hgs
      simp [openLoop]
  | cons i rest ih =>
      intro idx good b le done warns ch att aok hlb hgs
      obtain ⟨hble, hlb'⟩ := serialLB_cons_elim _ _ _ hlb
      cases hbe : (b.serial == i.serial) with
      | false =>
          have hbd : badDiffers (some b) i.serial = true := by
            simp [badDiffers, hbe]
          rw [openLoop_step_abort bind i rest idx good (some b) le done
            warns ch att aok hbd]
          exact ⟨rfl, rfl⟩
      | true =>
          have hbeq : b.serial = i.serial := by simpa using hbe
          have hbd : badDiffers (some b) i.serial = false := by
            simp [badDiffers, hbe]
          simp only [groupHasSuccess, Bool.or_eq_false_iff] at hgs
          obtain ⟨hhead, htail⟩ := hgs
          cases hb : bind idx with
          | none =>
              exfalso
              rw [hb] at hhead
              simp [hbeq] at hhead
          | some e =>
              cases hg : goodShares good i.serial with
              | true =>
                  rw [openLoop_step_warn bind i rest idx good (some b) le
                    done warns ch att aok e hbd hb hg]
                  exact ih (idx + 1) good b le (done ++ [i])
                    (warns ++ [(idx, i.describe, e, goodDescr good)]) ch
                    (att ++ [idx]) (aok && !i.isOpen) hlb' htail
              | false =>
                  rw [openLoop_step_skip bind i rest idx good b le done
                    warns ch att aok e hbd hb hg]
                  exact ih (idx + 1) good b le (done ++ [i]) warns ch
                    (att ++ [idx]) (aok && !i.isOpen) hlb' htail

/-- Master lemma for C2: the remaining listeners are serial-sorted, group
`g0` occurs among them and fails entirely, every smaller group failing
entirely is covered by the rolling good listener (whose serial is a lower
bound and differs from `g0`), and a pending bad entry (if any) bounds the
remainder below, still finds a success ahead, and precedes `g0`.  Then
the walk fails and returns the prefixed error of `g0`'s first member. -/
theorem openLoop_allfail (bind : Nat → Option String) :
    ∀ (rest : List OneServerSocket) (idx : Nat)
      (good bad : Option OneServerSocket) (le : Option String)
      (done : List OneServerSocket)
      (warns : List (Nat × String × String × String))
      (ch : List (String × Nat)) (att : List Nat) (aok : Bool) (g0 : Nat),
      serialsSorted rest = true →
      groupAllFail bind idx rest g0 = true →
      (∀ gd, good = some gd → serialLB gd.serial rest = true ∧
          gd.serial ≠ g0) →
      (∀ g, g < g0 → groupAllFail bind idx rest g = true →
          ∃ gd, good = some gd ∧ gd.serial = g) →
      (∀ b, bad = some b → serialLB b.serial rest = true ∧
          groupHasSuccess bind idx rest b.serial = true ∧ b.serial < g0) →
      (openLoop bind rest idx good bad le done warns ch att aok).ok = false
      ∧ ∃ m l e, firstMemberOfGroup rest g0 = some (m, l)
          ∧ bind (idx + m) = some e
          ∧ (openLoop bind rest idx good bad le done warns ch att aok).error
              = some ("Failed to bind to '" ++ l.describe ++ "': " ++ e) := by
  intro rest
  induction rest with
  | nil =>
      intro idx good bad le done warns ch att aok g0 hsort hall hgood hinv
        hbad
      simp [groupAllFail, groupOccurs] at hall
  | cons i rest ih =>
      intro idx good bad le done warns ch att aok g0 hsort hall hgood hinv
        hbad
      obtain ⟨hlbi, hsort'⟩ := serialsSorted_cons i rest hsort
      have hbd : badDiffers bad i.serial = false := by
        cases bad with
        | none => rfl
        | some b =>
            obtain ⟨hlb, hgs, -⟩ := hbad b rfl
            exact pending_bad_matches bind i rest idx b hlbi hlb hgs
      simp only [groupAllFail, Bool.and_eq_true, Bool.not_eq_true'] at hall
      obtain ⟨hallocc, hallgs⟩ := hall
      simp only [groupHasSuccess, Bool.or_eq_false_iff] at hallgs
      obtain ⟨hallhead, halltail⟩ := hallgs
      cases hi0 : (i.serial == g0) with
      | true =>
          have hieq : i.serial = g0 := by simpa using hi0
          have hb : ∃ e, bind idx = some e := by
            cases hbi : bind idx with
            | none =>
                exfalso
                rw [hbi, hi0] at hallhead
                simp at hallhead
            | some e => exact ⟨e, rfl⟩
          obtain ⟨e, hb⟩ := hb
          have hg : goodShares good i.serial = false := by
            cases hgx : goodShares good i.serial with
            | false => rfl
            | true =>
                exfalso
                obtain ⟨gd, hgde, hgds⟩ := goodShares_eq good i.serial hgx
                exact (hgood gd hgde).2 (by omega)
          have hbn : bad = none := by
            cases hbx : bad with
            | none => rfl
            | some b =>
                exfalso
                obtain ⟨hlb, hgs, hlt⟩ := hbad b hbx
                have := badDiffers_eq b i.serial (by rw [hbx] at hbd; exact hbd)
                omega
          subst hbn
          rw [openLoop_step_record bind i rest idx good none le done warns
            ch att aok e hbd hb hg rfl]
          have htail0 : groupHasSuccess bind (idx + 1) rest i.serial
              = false := by
            rw [hieq]
            exact halltail
          have hdoom := openLoop_bad_doomed bind rest (idx + 1) good i
            (some ("Failed to bind to '" ++ i.describe ++ "': " ++ e))
            (done ++ [i]) warns ch (att ++ [idx]) (aok && !i.isOpen)
            hlbi htail0
          refine ⟨hdoom.1, 0, i, e, ?_, ?_, hdoom.2⟩
          · simp [firstMemberOfGroup, hi0]
          · simpa using hb
      | false =>
          have hine : i.serial ≠ g0 := by simpa using hi0
          have hocc' : groupOccurs rest g0 = true := by
            simp only [groupOccurs, Bool.or_eq_true] at hallocc
            rcases hallocc with h1 | h2
            · rw [h1] at hi0
              cases hi0
            · exact h2
          have hall' : groupAllFail bind (idx + 1) rest g0 = true := by
            simp [groupAllFail, hocc', halltail]
          have hlti : i.serial < g0 := by
            have := groupOccurs_lb rest i.serial g0 hlbi hocc'
            omega
          have hfmlift : ∀ r : OpenResult,
              (r.ok = false
                ∧ ∃ m l e, firstMemberOfGroup rest g0 = some (m, l)
                  ∧ bind (idx + 1 + m) = some e
                  ∧ r.error = some ("Failed to bind to '" ++ l.describe
                      ++ "': " ++ e)) →
              (r.ok = false
                ∧ ∃ m l e, firstMemberOfGroup (i :: rest) g0 = some (m, l)
                  ∧ bind (idx + m) = some e
                  ∧ r.error = some ("Failed to bind to '" ++ l.describe
                      ++ "': " ++ e)) := by
            rintro r ⟨hok, m, l, e', hfm, hbm, herr⟩
            refine ⟨hok, m + 1, l, e', ?_, ?_, herr⟩
            · simp [firstMemberOfGroup, hi0, hfm]
            · have harith : idx + (m + 1) = idx + 1 + m := by omega
              rw [harith]
              exact hbm
          cases hb : bind idx with
          | none =>
              rw [openLoop_step_success bind i rest idx good bad le done
                warns ch att aok hbd hb]
              refine hfmlift _ (ih (idx + 1) (some { i with isOpen := true })
                none none (done ++ [{ i with isOpen := true }]) warns
                (ch ++ pathChmods i) (att ++ [idx]) (aok && !i.isOpen) g0
                hsort' hall' ?_ ?_ ?_)
              · intro gd hgd
                cases hgd
                exact ⟨hlbi, hine⟩
              · intro g hglt hga
                simp only [groupAllFail, Bool.and_eq_true,
                  Bool.not_eq_true'] at hga
                by_cases hgi : i.serial = g
                · exact ⟨{ i with isOpen := true }, rfl, hgi⟩
                · exfalso
                  obtain ⟨gd, hgde, hgds⟩ := hinv g hglt
                    (groupAllFail_lift bind i rest idx g hgi hga.1 hga.2)
                  have h1 := (serialLB_cons_elim _ _ _
                    (hgood gd hgde).1).1
                  have h2 := groupOccurs_lb rest i.serial g hlbi hga.1
                  omega
              · intro b hb'
                cases hb'
          | some e =>
              cases hg : goodShares good i.serial with
              | true =>
                  rw [openLoop_step_warn bind i rest idx good bad le done
                    warns ch att aok e hbd hb hg]
                  refine hfmlift _ (ih (idx + 1) good bad le (done ++ [i])
                    (warns ++ [(idx, i.describe, e, goodDescr good)]) ch
                    (att ++ [idx]) (aok && !i.isOpen) g0 hsort' hall'
                    ?_ ?_ ?_)
                  · intro gd hgd
                    exact ⟨(serialLB_cons_elim _ _ _ (hgood gd hgd).1).2,
                      (hgood gd hgd).2⟩
                  · intro g hglt hga
                    simp only [groupAllFail, Bool.and_eq_true,
                      Bool.not_eq_true'] at hga
                    by_cases hgi : i.serial = g
                    · obtain ⟨gd, hgde, hgds⟩ := goodShares_eq good
                        i.serial hg
                      exact ⟨gd, hgde, by omega⟩
                    · exact hinv g hglt
                        (groupAllFail_lift bind i rest idx g hgi hga.1 hga.2)
                  · intro b hb'
                    obtain ⟨hlb, hgs, hlt⟩ := hbad b hb'
                    refine ⟨(serialLB_cons_elim _ _ _ hlb).2, ?_, hlt⟩
                    simp only [groupHasSuccess, Bool.or_eq_true,
                      Bool.and_eq_true] at hgs
                    rcases hgs with ⟨-, hisNone⟩ | h2
                    · rw [hb] at hisNone
                      simp at hisNone
                    · exact h2
              | false =>
                  cases hbn : bad with
                  | none =>
                      subst hbn
                      have hsave : groupHasSuccess bind (idx + 1) rest
                          i.serial = true := by
                        by_contra hc
                        have hfalse : groupHasSuccess bind (idx + 1) rest
                            i.serial = false := Bool.eq_false_iff.mpr hc
                        have halli : groupAllFail bind idx (i :: rest)
                            i.serial = true := by
                          simp [groupAllFail, groupOccurs, groupHasSuccess,
                            hb, hfalse]
                        obtain ⟨gd, hgde, hgds⟩ := hinv i.serial hlti halli
                        rw [hgde] at hg
                        simp [goodShares, hgds] at hg
                      rw [openLoop_step_record bind i rest idx good none le
                        done warns ch att aok e hbd hb hg rfl]
                      refine hfmlift _ (ih (idx + 1) good (some i)
                        (some ("Failed to bind to '" ++ i.describe ++ "': "
                          ++ e)) (done ++ [i]) warns ch (att ++ [idx])
                        (aok && !i.isOpen) g0 hsort' hall' ?_ ?_ ?_)
                      · intro gd hgd
                        exact ⟨(serialLB_cons_elim _ _ _ (hgood gd hgd).1).2,
                          (hgood gd hgd).2⟩
                      · intro g hglt hga
                        simp only [groupAllFail, Bool.and_eq_true,
                          Bool.not_eq_true'] at hga
                        by_cases hgi : i.serial = g
                        · exfalso
                          rw [hgi] at hsave
                          rw [hsave] at hga
                          exact absurd hga.2 (by simp)
                        · exact hinv g hglt (groupAllFail_lift bind i rest
                            idx g hgi hga.1 hga.2)
                      · intro b hb'
                        cases hb'
                        exact ⟨hlbi, hsave, hlti⟩
                  | some b =>
                      subst hbn
                      obtain ⟨hlb, hgs, hlt⟩ := hbad b rfl
                      have hbeq : b.serial = i.serial :=
                        badDiffers_eq b i.serial hbd
                      have htailb : groupHasSuccess bind (idx + 1) rest
                          b.serial = true := by
                        simp only [groupHasSuccess, Bool.or_eq_true,
                          Bool.and_eq_true] at hgs
                        rcases hgs with ⟨-, hisNone⟩ | h2
                        · rw [hb] at hisNone
                          simp at hisNone
                        · exact h2
                      rw [openLoop_step_skip bind i rest idx good b le done
                        warns ch att aok e hbd hb hg]
                      refine hfmlift _ (ih (idx + 1) good (some b) le
                        (done ++ [i]) warns ch (att ++ [idx])
                        (aok && !i.isOpen) g0 hsort' hall' ?_ ?_ ?_)
                      · intro gd hgd
                        exact ⟨(serialLB_cons_elim _ _ _ (hgood gd hgd).1).2,
                          (hgood gd hgd).2⟩
                      · intro g hglt hga
                        simp only [groupAllFail, Bool.and_eq_true,
                          Bool.not_eq_true'] at hga
                        by_cases hgi : i.serial = g
                        · exfalso
                          rw [hbeq, hgi] at htailb
                          rw [htailb] at hga
                          exact absurd hga.2 (by simp)
                        · exact hinv g hglt (groupAllFail_lift bind i rest
                            idx g hgi hga.1 hga.2)
                      · intro b' hb'
                        cases hb'
                        exact ⟨(serialLB_cons_elim _ _ _ hlb).2, htailb, hlt⟩

/-- Lifting the warning-source description one walked listener back. -/
theorem warnSrc_lift (bind : Nat → Option String) (i : OneServerSocket)
    (rest : List OneServerSocket) (idx : Nat)
    (good : Option OneServerSocket) (w : Nat × String × String × String)
    (h : (idx + 1) ≤ w.1 ∧ ∃ lj, rest.get? (w.1 - (idx + 1)) = some lj ∧
      ((∃ gd, good = some gd ∧ gd.serial = lj.serial) ∨
       (∃ k lk, idx + 1 ≤ k ∧ k < w.1 ∧ rest.get? (k - (idx + 1)) = some lk ∧
         bind k = none ∧ lk.serial = lj.serial))) :
    idx ≤ w.1 ∧ ∃ lj, (i :: rest).get? (w.1 - idx) = some lj ∧
      ((∃ gd, good = some gd ∧ gd.serial = lj.serial) ∨
       (∃ k lk, idx ≤ k ∧ k < w.1 ∧ (i :: rest).get? (k - idx) = some lk ∧
         bind k = none ∧ lk.serial = lj.serial)) := by
  obtain ⟨hle, lj, hget, horig⟩ := h
  refine ⟨by omega, lj, ?_, ?_⟩
  · rw [← get?_shift i rest w.1 idx hle]
    exact hget
  · rcases horig with hgd | ⟨k, lk, hk1, hk2, hkget, hkb, hks⟩
    · exact Or.inl hgd
    · refine Or.inr ⟨k, lk, by omega, hk2, ?_, hkb, hks⟩
      rw [← get?_shift i rest k idx hk1]
      exact hkget

/-- Every warning the walk emits names a listener whose group already
held a success when it was reached: either the rolling good listener on
entry shared its serial, or some earlier position bound successfully with
the same serial. -/
theorem openLoop_warn_src (bind : Nat → Option String) :
    ∀ (rest : List OneServerSocket) (idx : Nat)
      (good bad : Option OneServerSocket) (le : Option String)
      (done : List OneServerSocket)
      (warns : List (Nat × String × String × String))
      (ch : List (String × Nat)) (att : List Nat) (aok : Bool)
      (w : Nat × String × String × String),
      w ∈ (openLoop bind rest idx good bad le done warns ch att aok).warnings →
      w ∈ warns ∨
      (idx ≤ w.1 ∧ ∃ lj, rest.get? (w.1 - idx) = some lj ∧
        ((∃ gd, good = some gd ∧ gd.serial = lj.serial) ∨
         (∃ k lk, idx ≤ k ∧ k < w.1 ∧ rest.get? (k - idx) = some lk ∧
           bind k = none ∧ lk.serial = lj.serial))) := by
  intro rest
  induction rest with
  | nil =>
      intro idx good bad le done warns ch att aok w hw
      cases bad <;> simp [openLoop] at hw <;> exact Or.inl hw
  | cons i rest ih =>
      intro idx good bad le done warns ch att aok w hw
      cases hbd : badDiffers bad i.serial with
      | true =>
          rw [openLoop_step_abort bind i rest idx good bad le done warns ch
            att aok hbd] at hw
          exact Or.inl hw
      | false =>
          cases hb : bind idx with
          | none =>
              rw [openLoop_step_success bind i rest idx good bad le done
                warns ch att aok hbd hb] at hw
              rcases ih (idx + 1) (some { i with isOpen := true }) none none
                  (done ++ [{ i with isOpen := true }]) warns
                  (ch ++ pathChmods i) (att ++ [idx]) (aok && !i.isOpen) w hw
                with hin | ⟨hle, lj, hget, horig⟩
              · exact Or.inl hin
              · refine Or.inr ⟨by omega, lj, ?_, ?_⟩
                · rw [← get?_shift i rest w.1 idx hle]
                  exact hget
                · rcases horig with ⟨gd, hgde, hgds⟩ |
                      ⟨k, lk, hk1, hk2, hkget, hkb, hks⟩
                  · cases hgde
                    refine Or.inr ⟨idx, i, Nat.le_refl idx, by omega, ?_,
                      hb, hgds⟩
                    simp
                  · refine Or.inr ⟨k, lk, by omega, hk2, ?_, hkb, hks⟩
                    rw [← get?_shift i rest k idx hk1]
                    exact hkget
          | some e =>
              cases hg : goodShares good i.serial with
              | true =>
                  rw [openLoop_step_warn bind i rest idx good bad le done
                    warns ch att aok e hbd hb hg] at hw
                  rcases ih (idx + 1) good bad le (done ++ [i])
                      (warns ++ [(idx, i.describe, e, goodDescr good)]) ch
                      (att ++ [idx]) (aok && !i.isOpen) w hw
                    with hin | hsrc
                  · rcases List.mem_append.mp hin with hin | hin
                    · exact Or.inl hin
                    · have hwi : w = (idx, i.describe, e, goodDescr good) :=
                        List.mem_singleton.mp hin
                      refine Or.inr ⟨by rw [hwi], i, ?_, ?_⟩
                      · rw [hwi]
                        simp
                      · exact Or.inl (goodShares_eq good i.serial hg)
                  · exact Or.inr (warnSrc_lift bind i rest idx good w hsrc)
              | false =>
                  cases hbn : bad with
                  | none =>
                      subst hbn
                      rw [openLoop_step_record bind i rest idx good none le
                        done warns ch att aok e hbd hb hg rfl] at hw
                      rcases ih (idx + 1) good (some i)
                          (some ("Failed to bind to '" ++ i.describe ++ "': "
                            ++ e)) (done ++ [i]) warns ch (att ++ [idx])
                          (aok && !i.isOpen) w hw
                        with hin | hsrc
                      · exact Or.inl hin
                      · exact Or.inr (warnSrc_lift bind i rest idx good w hsrc)
                  | some b =>
                      subst hbn
                      rw [openLoop_step_skip bind i rest idx good b le done
                        warns ch att aok e hbd hb hg] at hw
                      rcases ih (idx + 1) good (some b) le (done ++ [i])
                          warns ch (att ++ [idx]) (aok && !i.isOpen) w hw
                        with hin | hsrc
                      · exact Or.inl hin
                      · exact Or.inr (warnSrc_lift bind i rest idx good w hsrc)

/-! ## Claim C2 -/

/-- C2: if some serial group of a serial-sorted listener sequence fails
to bind entirely, `Open` returns failure; and when `g` is the first such
group, the error returned is the one recorded for `g`'s first listener:
its bind error, prefixed with that listener's address in textual form. -/
theorem open_allfail_group_error (st : ServerSocket)
    (bind : Nat → Option String) (g : Nat)
    (hsort : serialsSorted st.sockets = true)
    (hall : groupAllFail bind 0 st.sockets g = true) :
    (st.Open bind).ok = false ∧
    ((∀ g', g' < g → groupAllFail bind 0 st.sockets g' = false) →
      ∃ m l e, firstMemberOfGroup st.sockets g = some (m, l)
        ∧ bind m = some e
        ∧ (st.Open bind).error
            = some ("Failed to bind to '" ++ l.describe ++ "': " ++ e)) := by
  constructor
  · have hex : ∃ n, groupAllFail bind 0 st.sockets n = true := ⟨g, hall⟩
    have hspec := Nat.find_spec hex
    have hmain := openLoop_allfail bind st.sockets 0 none none none [] [] []
      [] true (Nat.find hex) hsort hspec
      (by intro gd hgd; cases hgd)
      (by
        intro g' hg' ha
        exact absurd ha (Nat.find_min hex hg'))
      (by intro b hb; cases hb)
    exact hmain.1
  · intro hmin
    have hmain := openLoop_allfail bind st.sockets 0 none none none [] [] []
      [] true g hsort hall
      (by intro gd hgd; cases hgd)
      (by
        intro g' hg' ha
        rw [hmin g' hg'] at ha
        cases ha)
      (by intro b hb; cases hb)
    obtain ⟨-, m, l, e, hfm, hbm, herr⟩ := hmain
    exact ⟨m, l, e, hfm, by simpa using hbm, herr⟩

/-- C2 witness: two listeners sharing serial 1, both failing; the
returned error is the first listener's, prefixed with its address. -/
theorem open_allfail_group_error_witness :
    ((ServerSocket.mk [⟨1, none, Addr.ipv4Any 80, false⟩,
        ⟨1, none, Addr.ipv6Any 80, false⟩] 2).Open
        (fun _ => some "boom")).ok = false
    ∧ ∃ m l e,
        firstMemberOfGroup (ServerSocket.mk
          [⟨1, none, Addr.ipv4Any 80, false⟩,
           ⟨1, none, Addr.ipv6Any 80, false⟩] 2).sockets 1 = some (m, l)
        ∧ (fun _ => some "boom" : Nat → Option String) m = some e
        ∧ ((ServerSocket.mk [⟨1, none, Addr.ipv4Any 80, false⟩,
            ⟨1, none, Addr.ipv6Any 80, false⟩] 2).Open
            (fun _ => some "boom")).error
            = some ("Failed to bind to '" ++ l.describe ++ "': " ++ e) := by
  have h := open_allfail_group_error
    (ServerSocket.mk [⟨1, none, Addr.ipv4Any 80, false⟩,
      ⟨1, none, Addr.ipv6Any 80, false⟩] 2)
    (fun _ => some "boom") 1 (by decide) (by decide)
  exact ⟨h.1, h.2 (by decide)⟩

/-! ## Claim C1 -/

/-- C1 (amended): with two listeners sharing one serial where the first
fails to bind and the second binds successfully, and no other serial
group failing without a success, `Open` returns success and the stored
error is cleared — but the failed sibling is forgiven silently: no
warning mentions it (the walk emits a warning only when a failure comes
after a success of the same group, never in this order). -/
theorem open_partial_failure_forgiven (st : ServerSocket)
    (bind : Nat → Option String) (g m : Nat) (a b : OneServerSocket)
    (e : String)
    (hsort : serialsSorted st.sockets = true)
    (hnof : ∀ g', groupAllFail bind 0 st.sockets g' = false)
    (hga : st.sockets.get? m = some a) (hsa : a.serial = g)
    (hfa : bind m = some e)
    (hgb : st.sockets.get? (m + 1) = some b) (hsb : b.serial = g)
    (hfb : bind (m + 1) = none)
    (honly : ∀ k l, st.sockets.get? k = some l → l.serial = g →
      k = m ∨ k = m + 1) :
    (st.Open bind).ok = true ∧ (st.Open bind).error = none ∧
    ∀ w ∈ (st.Open bind).warnings, w.1 ≠ m := by
  have hmain := openLoop_success bind st.sockets 0 none none none [] [] [] []
    true hsort (by intro gd hgd; cases hgd) (by intro bb hbb; cases hbb)
    (by
      intro g' hg'
      rw [hnof g'] at hg'
      cases hg')
  refine ⟨hmain.1, hmain.2, ?_⟩
  intro w hw hwm
  simp only [ServerSocket.Open] at hw
  rcases openLoop_warn_src bind st.sockets 0 none none none [] [] [] [] true
      w hw with hin | ⟨-, lj, hget, horig⟩
  · simp at hin
  · rw [Nat.sub_zero, hwm, hga] at hget
    have hlj : lj = a := Option.some_injective _ hget.symm
    subst hlj
    rcases horig with ⟨gd, hgde, -⟩ | ⟨k, lk, -, hkm, hkget, -, hks⟩
    · cases hgde
    · rw [Nat.sub_zero] at hkget
      have := honly k lk hkget (by rw [hks, hsa])
      omega

/-- C1 witness for the amended statement: the two-listener group of the
counterexample. -/
theorem open_partial_failure_forgiven_witness :
    ((ServerSocket.mk [⟨1, none, Addr.ipv4Any 80, false⟩,
        ⟨1, none, Addr.ipv6Any 80, false⟩] 2).Open
        (fun k => if k = 0 then some "boom" else none)).ok = true
    ∧ ((ServerSocket.mk [⟨1, none, Addr.ipv4Any 80, false⟩,
        ⟨1, none, Addr.ipv6Any 80, false⟩] 2).Open
        (fun k => if k = 0 then some "boom" else none)).error = none
    ∧ ∀ w ∈ ((ServerSocket.mk [⟨1, none, Addr.ipv4Any 80, false⟩,
        ⟨1, none, Addr.ipv6Any 80, false⟩] 2).Open
        (fun k => if k = 0 then some "boom" else none)).warnings,
        w.1 ≠ 0 :=
  open_partial_failure_forgiven
    (ServerSocket.mk [⟨1, none, Addr.ipv4Any 80, false⟩,
      ⟨1, none, Addr.ipv6Any 80, false⟩] 2)
    (fun k => if k = 0 then some "boom" else none) 1 0
    ⟨1, none, Addr.ipv4Any 80, false⟩ ⟨1, none, Addr.ipv6Any 80, false⟩
    "boom" (by decide)
    (by
      intro g'
      cases hg : (1 == g') <;>
        simp [groupAllFail, groupOccurs, groupHasSuccess, hg])
    (by decide) (by decide) (by decide) (by decide) (by decide) (by decide)
    (by
      intro k l hk hs
      match k with
      | 0 => exact Or.inl rfl
      | 1 => exact Or.inr rfl
      | (n + 2) => simp at hk)

/-! ## Counterexamples needing only concrete evaluation -/

/-- C1 (counterexample): two listeners share serial 1; the bind of the
first fails, the bind of the second succeeds.  `Open` returns success,
but the failed sibling produces no warning at all (the warning list is
empty): the forgiveness at lines 256-264 is silent, the only warning in
`ServerSocket::Open` (lines 233-242) fires in the opposite order, when a
failure follows a success of the same group. -/
theorem open_partial_failure_warning_cex :
    ((ServerSocket.mk [⟨1, none, Addr.ipv4Any 80, false⟩,
        ⟨1, none, Addr.ipv6Any 80, false⟩] 2).Open
        (fun k => if k = 0 then some "boom" else none)).ok = true
    ∧ ((ServerSocket.mk [⟨1, none, Addr.ipv4Any 80, false⟩,
        ⟨1, none, Addr.ipv6Any 80, false⟩] 2).Open
        (fun k => if k = 0 then some "boom" else none)).warnings = [] := by
  decide

/-- C7 (counterexample): a group holding one listener that is already
open (as `AddFD` leaves it).  `Open` does not leave it as-is: it attempts
the bind of position 0 anyway, and the `assert(!IsDefined())`
precondition of `OneServerSocket::Open` is violated. -/
theorem open_attempts_open_listener_cex :
    ((ServerSocket.mk [⟨1, none, Addr.resolved "activation", true⟩] 2).Open
        (fun _ => none)).attempted = [0]
    ∧ ((ServerSocket.mk [⟨1, none, Addr.resolved "activation", true⟩] 2).Open
        (fun _ => none)).assertOk = false := by
  decide

end MPD
